import Mathlib

/-!
Verification of the concurrent delivery pipeline of `src/main.py`
(poll confirmation → pending-delivery set → delivery scanner →
token minting → outbound queues → queue drainers → upload endpoint).

Times are modelled as integer seconds (Python datetimes / `CURRENT_TIMESTAMP`
strings compare chronologically, and all stored timestamps use one format).
Database tables (`UploadToken`, `OptionExecution`) are modelled as lists of
rows; SQL statements become list operations with the same observable effect.
External effects that can raise (the sqlite artifact lookup in the scanner,
the bot-API dispatch in the drainers) are modelled as injected functions
returning `Except`.
-/

namespace InvestorsUI

/-- A selection key: the (poll_id, option_id, user_id) triple used throughout
the pipeline (`PENDING_DELIVERY` items, `UploadToken` rows, `OptionExecution`
rows). -/
structure SelKey where
  pollId : Int
  optionId : Int
  userId : Int
deriving DecidableEq, Repr

/-- One entry of the `PENDING_DELIVERY` list:
`{"poll_id": .., "option_id": .., "user_id": .., "added_at": ..}`. -/
structure PendingItem where
  key : SelKey
  addedAt : Int
deriving DecidableEq, Repr

/-- A row of the `UploadToken` table (`init_db`): token text (primary key),
the selection key, optional username, `created_at`, `expires_at`, nullable
`used_at`. -/
structure TokenRow where
  token : String
  pollId : Int
  optionId : Int
  userId : Int
  username : Option String
  createdAt : Int
  expiresAt : Int
  usedAt : Option Int
deriving DecidableEq, Repr

/-- The selection key stored in an `UploadToken` row. -/
def TokenRow.key (t : TokenRow) : SelKey :=
  ⟨t.pollId, t.optionId, t.userId⟩

/-- A row of the `OptionExecution` table (`init_db`): primary key
(poll_id, option_id, user_id) plus `screenshot_url` and `created_at`. -/
structure ExecRow where
  pollId : Int
  optionId : Int
  userId : Int
  screenshotUrl : String
  createdAt : Int
deriving DecidableEq, Repr

/-- The primary-key triple of an `OptionExecution` row. -/
def ExecRow.key (r : ExecRow) : SelKey :=
  ⟨r.pollId, r.optionId, r.userId⟩

/-- The slice of the sqlite database the upload endpoint touches:
the `UploadToken` and `OptionExecution` tables. -/
structure DB where
  tokens : List TokenRow
  execs : List ExecRow
deriving DecidableEq, Repr

/-- The uploaded multipart file: `request.files.get("file")` yields either
nothing or a file with a (possibly empty) filename. -/
structure UFile where
  filename : String
deriving DecidableEq, Repr

/-- The token-validity lookup shared by `ui_upload_form` and
`ui_upload_submit`:
`SELECT .. FROM UploadToken t WHERE t.token = ? AND t.used_at IS NULL AND
t.expires_at > CURRENT_TIMESTAMP`. -/
def lookupValid (db : DB) (tok : String) (now : Int) : Option TokenRow :=
  db.tokens.find? (fun t => t.token = tok ∧ t.usedAt = none ∧ t.expiresAt > now)

/-- `ui_upload_form` (GET `/ui/upload/<token>`): 410 when the token lookup
finds no valid row, 200 (the form) otherwise. -/
def uploadFormStatus (db : DB) (tok : String) (now : Int) : Nat :=
  match lookupValid db tok now with
  | none => 410
  | some _ => 200

/-- The saved filename of an execution screenshot
(`exec_p{poll}_o{opt}_u{user}_{stamp}__{fname}`, with `secure_filename`
taken as the identity on the already-sanitised model filename and the UTC
stamp rendered from the integer clock). -/
def execSavedName (row : TokenRow) (f : UFile) (now : Int) : String :=
  "exec_p" ++ toString row.pollId ++ "_o" ++ toString row.optionId ++
    "_u" ++ toString row.userId ++ "_" ++ toString now ++ "__" ++ f.filename

/-- The `screenshot_url` recorded by `ui_upload_submit`:
`f"uploads/{saved}"`. -/
def execUrl (row : TokenRow) (f : UFile) (now : Int) : String :=
  "uploads/" ++ execSavedName row f now

/-- The `OptionExecution` upsert of `ui_upload_submit`:
`INSERT .. ON CONFLICT(poll_id, option_id, user_id) DO UPDATE SET
screenshot_url=excluded.screenshot_url, created_at=CURRENT_TIMESTAMP`. -/
def upsertExec (db : DB) (k : SelKey) (url : String) (now : Int) : DB :=
  if db.execs.any (fun r => r.key = k) then
    { db with execs := db.execs.map (fun r =>
        if r.key = k then { r with screenshotUrl := url, createdAt := now } else r) }
  else
    { db with execs := db.execs ++ [⟨k.pollId, k.optionId, k.userId, url, now⟩] }

/-- The token-consumption update of `ui_upload_submit`:
`UPDATE UploadToken SET used_at=CURRENT_TIMESTAMP WHERE token=?`.
Note the statement has no `used_at IS NULL` guard. -/
def markUsed (db : DB) (tok : String) (now : Int) : DB :=
  { db with tokens := db.tokens.map (fun t =>
      if t.token = tok then { t with usedAt := some now } else t) }

/-- The write phase of `ui_upload_submit` after a successful validity check:
upsert the `OptionExecution` row for the token's selection, then mark the
token used, in one commit. -/
def finishUpload (db : DB) (tok : String) (row : TokenRow) (f : UFile)
    (now : Int) : DB :=
  markUsed (upsertExec db row.key (execUrl row f now) now) tok now

/-- `ui_upload_submit` (POST `/ui/upload/<token>`) as one atomic execution:
re-check the token (410 when invalid), require a file with a filename (400),
then save the file and commit the `OptionExecution` upsert plus the
`used_at` update, answering the success page (200). -/
def uploadSubmit (db : DB) (tok : String) (file : Option UFile) (now : Int) :
    Nat × DB :=
  match lookupValid db tok now with
  | none => (410, db)
  | some row =>
    match file with
    | none => (400, db)
    | some f =>
      if f.filename = "" then (400, db)
      else (200, finishUpload db tok row f now)

/-! ## The delivery scanner (`trade_delivery_thread`) -/

/-- The row returned by the scanner's artifact lookup: the
`PollOptionTrade` ⋈ `Poll` ⋈ `PollOption` join selecting
`screenshot_url`, `question`, `option_text`. -/
structure Artifact where
  screenshotUrl : String
  question : String
  optionText : String
deriving DecidableEq, Repr

/-- One entry of `SEND_QUEUE`: the tuple
`(user_id, local_path_or_url, caption, button_url)`. -/
structure SendJob where
  userId : Int
  path : String
  caption : String
  buttonUrl : Option String
deriving DecidableEq, Repr

/-- `os.path.basename`: the component after the last slash, computed by a
left fold that restarts at every slash. -/
def basename (s : String) : String :=
  String.mk (s.data.foldl (fun acc ch => if ch = '/' then [] else acc ++ [ch]) [])

/-- `os.path.join(UPLOAD_DIR, fname)` with `UPLOAD_DIR = "uploads"`. -/
def localPath (url : String) : String :=
  "uploads/" ++ basename url

/-- Python `x or d` on strings: the default replaces the empty (falsy)
value. -/
def orDefault (s d : String) : String :=
  if s = "" then d else s

/-- The DM caption built by the scanner. -/
def mkCaption (a : Artifact) : String :=
  "🗳️ " ++ orDefault a.question "Poll" ++ "\n➡️ Selected: " ++
    orDefault a.optionText "Selected option" ++
    "\n\n📸 Trade screenshot attached"

/-- The upload link placed on the DM button:
`f"{PUBLIC_BASE_URL}/ui/upload/{token}"`. -/
def uploadLink (base tok : String) : String :=
  base ++ "/ui/upload/" ++ tok

/-- The pending-delivery TTL: `TTL = timedelta(days=5)` in seconds. -/
def pendingTtl : Int := 5 * 86400

/-- The token lifetime: `expires_at = now + timedelta(days=2)` in seconds. -/
def tokenTtl : Int := 2 * 86400

/-- The `UploadToken` row inserted by the scanner for a freshly minted
token: created now, expiring in two days, unused. -/
def mkToken (tok : String) (k : SelKey) (uname : Option String) (now : Int) :
    TokenRow :=
  ⟨tok, k.pollId, k.optionId, k.userId, uname, now, now + tokenTtl, none⟩

/-- The send job queued for a delivered artifact: DM the user the local
screenshot with the caption and the token's upload link. -/
def mkJob (item : PendingItem) (a : Artifact) (base tok : String) : SendJob :=
  ⟨item.key.userId, localPath a.screenshotUrl, mkCaption a,
    some (uploadLink base tok)⟩

/-- Outcome of one scan pass over `PENDING_DELIVERY`. On success: the new
pending list, the jobs to enqueue, the tokens inserted. On an exception
(`err`): the pass aborts, but tokens minted for earlier items were already
committed one by one and are carried along; no removal and no enqueue
happens. -/
inductive ScanResult where
  | ok (pending : List PendingItem) (jobs : List SendJob)
      (minted : List TokenRow)
  | err (minted : List TokenRow)
deriving DecidableEq, Repr

/-- The body of one scan pass of `trade_delivery_thread` over the pending
list. Per item: drop it silently when older than the 5-day TTL; otherwise
run the artifact lookup (`resolve`, the `PollOptionTrade` join query, which
may raise); keep the item pending when no row or an empty `screenshot_url`
comes back; otherwise mint a token (`gen` supplies the `token_urlsafe`
output for each successive mint, `uname` the latest `PollResponse`
username), record it, and emit the send job. An exception propagates: no
later item is examined and the whole pass yields `err`. -/
def scanGo (resolve : SelKey → Except Unit (Option Artifact))
    (uname : SelKey → Option String) (gen : Nat → String) (base : String)
    (now : Int) : List PendingItem → Nat → ScanResult
  | [], _ => .ok [] [] []
  | item :: rest, c =>
    if now - item.addedAt > pendingTtl then
      scanGo resolve uname gen base now rest c
    else
      match resolve item.key with
      | .error _ => .err []
      | .ok none =>
        match scanGo resolve uname gen base now rest c with
        | .ok p js ms => .ok (item :: p) js ms
        | .err ms => .err ms
      | .ok (some art) =>
        if art.screenshotUrl = "" then
          match scanGo resolve uname gen base now rest c with
          | .ok p js ms => .ok (item :: p) js ms
          | .err ms => .err ms
        else
          let tok := gen c
          let trow := mkToken tok item.key (uname item.key) now
          let job := mkJob item art base tok
          match scanGo resolve uname gen base now rest (c + 1) with
          | .ok p js ms => .ok p (job :: js) (trow :: ms)
          | .err ms => .err (trow :: ms)

/-- The tokens committed by a scan pass, whether or not the pass later
raised. -/
def ScanResult.minted : ScanResult → List TokenRow
  | .ok _ _ ms => ms
  | .err ms => ms

/-! ## The pipeline as a transition system -/

/-- The shared mutable state crossed by the pipeline: the pending list, the
send queue, the `UploadToken` table, the token-supply counter, and whether
the scanner thread has died from an uncaught exception. -/
structure PipeState where
  pending : List PendingItem
  sendQueue : List SendJob
  tokens : List TokenRow
  counter : Nat
  halted : Bool
deriving DecidableEq, Repr

/-- Process start: empty pending list, empty queue, empty token table,
scanner alive. -/
def initState : PipeState := ⟨[], [], [], 0, false⟩

/-- The `confirmed == 1` branch of `confirm_handler`: under `PENDING_LOCK`,
append the selection to `PENDING_DELIVERY` unless an entry with the same
(poll_id, option_id, user_id) already exists. -/
def confirmAdd (k : SelKey) (t : Int) (s : PipeState) : PipeState :=
  if s.pending.any (fun i => i.key = k) then s
  else { s with pending := s.pending ++ [⟨k, t⟩] }

/-- One tick of `trade_delivery_thread`: run the pass; on success apply the
removals, append the minted tokens to the table, and enqueue the jobs
(outside the lock, after removal); on an exception the pending list and the
queue are untouched, tokens already committed stay, and the uncaught
exception terminates the thread (`halted`). -/
def scanStep (resolve : SelKey → Except Unit (Option Artifact))
    (uname : SelKey → Option String) (gen : Nat → String) (base : String)
    (now : Int) (s : PipeState) : PipeState :=
  match scanGo resolve uname gen base now s.pending s.counter with
  | .ok p js ms =>
    { pending := p, sendQueue := s.sendQueue ++ js,
      tokens := s.tokens ++ ms, counter := s.counter + ms.length,
      halted := s.halted }
  | .err ms => { s with tokens := s.tokens ++ ms, halted := true }

/-! ## The queue drainers -/

/-- Outcome of one drain tick: the jobs dispatched successfully in order,
the jobs still queued when the tick ended, and the failed job with its
error when a dispatch raised. -/
structure DrainOut (α : Type) (ε : Type) where
  sent : List α
  remaining : List α
  failed : Option (α × ε)
deriving DecidableEq, Repr

/-- The common shape of `drain_send_queue` and `drain_poll_queue`:
`get_nowait` until `queue.Empty` breaks the loop, dispatching each popped
job; `task_done` runs in a `finally`, and a dispatch exception propagates
out of the loop, ending the tick with the popped job dropped and the rest
still queued. -/
def drainLoop (dispatch : α → Except ε Unit) : List α → DrainOut α ε
  | [] => ⟨[], [], none⟩
  | j :: rest =>
    match dispatch j with
    | .ok _ =>
      let r := drainLoop dispatch rest
      ⟨j :: r.sent, r.remaining, r.failed⟩
    | .error e => ⟨[], rest, some (j, e)⟩

/-- `drain_send_queue`: drain `SEND_QUEUE`, dispatching each job to
`bot.send_photo` (file read plus bot API, which may raise). -/
def drainSendQueue (send : SendJob → Except ε Unit) (q : List SendJob) :
    DrainOut SendJob ε :=
  drainLoop send q

/-- `drain_poll_queue`: drain `POLL_QUEUE`, posting each poll to the group
(`post_poll_to_group`, which may raise). -/
def drainPollQueue (post : Int → Except ε Unit) (q : List Int) :
    DrainOut Int ε :=
  drainLoop post q

/-- The interleaved steps the pipeline state can take: a confirmation
arriving from the bot thread, a scanner tick (only while the scanner thread
is alive), and a send-queue drain tick. -/
inductive Step (gen : Nat → String) (base : String) :
    PipeState → PipeState → Prop
  | confirm (k : SelKey) (t : Int) (s : PipeState) :
      Step gen base s (confirmAdd k t s)
  | scan (resolve : SelKey → Except Unit (Option Artifact))
      (uname : SelKey → Option String) (now : Int) (s : PipeState)
      (h : s.halted = false) :
      Step gen base s (scanStep resolve uname gen base now s)
  | drainSend (dispatch : SendJob → Except Unit Unit) (s : PipeState) :
      Step gen base s
        { s with sendQueue := (drainSendQueue dispatch s.sendQueue).remaining }

/-- States reachable from process start. -/
inductive Reach (gen : Nat → String) (base : String) : PipeState → Prop
  | init : Reach gen base initState
  | step {s s' : PipeState} : Reach gen base s → Step gen base s s' →
      Reach gen base s'

/-! ## Two concurrent upload submissions

`ui_upload_submit` runs one sqlite statement at a time on a per-request
connection: the validity `SELECT` is one atomic database step, and the
`OptionExecution` upsert + `used_at` update + commit is another; the file
save sits between them and holds no database lock. Two concurrent POSTs of
the same token are therefore an interleaving of each handler's check step
and write step. -/

/-- Where one request handler stands: not yet checked, passed the check
with the row it read, or finished with its HTTP status. A handler whose
check finds no valid row answers 410 immediately. -/
inductive HPhase where
  | start
  | checked (row : TokenRow)
  | done (status : Nat)
deriving DecidableEq, Repr

/-- Shared database plus the two handlers' positions. -/
structure TwoSt where
  db : DB
  h1 : HPhase
  h2 : HPhase
deriving DecidableEq, Repr

/-- Atomic database events of the two concurrent submissions. -/
inductive UploadEv where
  | check1
  | check2
  | write1
  | write2
deriving DecidableEq, Repr

/-- One atomic event: a check runs the validity `SELECT` against the
current database (answering 410 on the spot when it fails); a write runs
the handler's commit (`finishUpload`) and answers 200 — but only for a
handler whose check already passed. -/
def uploadEvStep (tok : String) (f : UFile) (now : Int) (s : TwoSt) :
    UploadEv → TwoSt
  | .check1 =>
    match s.h1 with
    | .start =>
      match lookupValid s.db tok now with
      | none => { s with h1 := .done 410 }
      | some row => { s with h1 := .checked row }
    | _ => s
  | .check2 =>
    match s.h2 with
    | .start =>
      match lookupValid s.db tok now with
      | none => { s with h2 := .done 410 }
      | some row => { s with h2 := .checked row }
    | _ => s
  | .write1 =>
    match s.h1 with
    | .checked row =>
      { s with db := finishUpload s.db tok row f now, h1 := .done 200 }
    | _ => s
  | .write2 =>
    match s.h2 with
    | .checked row =>
      { s with db := finishUpload s.db tok row f now, h2 := .done 200 }
    | _ => s

/-- Run an interleaving of the two submissions from a shared database. -/
def runUploadRace (tok : String) (f : UFile) (now : Int) (db : DB)
    (evs : List UploadEv) : TwoSt :=
  evs.foldl (uploadEvStep tok f now) ⟨db, .start, .start⟩

/-- A sequence of POST `/ui/upload/<token>` executions, each atomic:
the fold of `uploadSubmit` over (token, file, time) calls. -/
def runUploads (calls : List (String × Option UFile × Int)) (db : DB) : DB :=
  calls.foldl (fun d c => (uploadSubmit d c.1 c.2.1 c.2.2).2) db

/-! ## Concrete sample data used by witnesses and counterexamples -/

/-- A sample selection key. -/
def sampleKey : SelKey := ⟨1, 2, 100⟩

/-- A deterministic stand-in for the `secrets.token_urlsafe(24)` supply. -/
def sampleGen : Nat → String := fun n => "tk" ++ toString n

/-- The default `PUBLIC_BASE_URL`. -/
def sampleBase : String := "http://127.0.0.1:5000"

/-- A sample admin trade screenshot row. -/
def sampleArt : Artifact := ⟨"uploads/a.png", "Q", "O"⟩

/-- A resolver that finds the sample artifact for every key. -/
def sampleResolve : SelKey → Except Unit (Option Artifact) :=
  fun _ => .ok (some sampleArt)

/-- A username lookup that finds nothing. -/
def sampleUname : SelKey → Option String := fun _ => none

/-- A resolver whose sqlite lookup raises for poll 1 and finds the sample
artifact otherwise. -/
def errResolve : SelKey → Except Unit (Option Artifact) :=
  fun k => if k.pollId = 1 then .error () else .ok (some sampleArt)

/-- Confirm the sample key, scan, confirm it again, scan again. -/
def raceTrace : PipeState :=
  scanStep sampleResolve sampleUname sampleGen sampleBase 30
    (confirmAdd sampleKey 20
      (scanStep sampleResolve sampleUname sampleGen sampleBase 10
        (confirmAdd sampleKey 0 initState)))

/-- Two pending items; the resolver raises on the first one while the
second one has an artifact ready. -/
def errScanState : PipeState :=
  ⟨[⟨⟨1, 1, 1⟩, 0⟩, ⟨⟨2, 2, 2⟩, 0⟩], [], [], 0, false⟩

/-- A valid sample token row: minted at 10, expiring at 172810. -/
def sampleToken : TokenRow := ⟨"tk0", 1, 2, 100, none, 10, 172810, none⟩

/-- A database holding just the valid sample token. -/
def sampleDB : DB := ⟨[sampleToken], []⟩

/-- A send dispatcher (bot API) that raises for user 1 and succeeds for
everyone else. -/
def sampleSendFail : SendJob → Except Unit Unit :=
  fun j => if j.userId = 1 then .error () else .ok ()

/-- A poll announcement that always succeeds. -/
def samplePostOk : Int → Except Unit Unit := fun _ => .ok ()

/-- A poll announcement that raises for poll 7 and succeeds otherwise. -/
def samplePostFail : Int → Except Unit Unit :=
  fun n => if n = 7 then .error () else .ok ()

/-- A pipeline state whose scanner thread has already died. -/
def haltedState : PipeState := ⟨[], [], [], 0, true⟩

/-- A database holding the valid sample token together with an existing
`OptionExecution` row for the same selection. -/
def sampleDB9 : DB := ⟨[sampleToken], [⟨1, 2, 100, "uploads/old.png", 5⟩]⟩

/-- A pending list holding one stale item (added at 0) ahead of one fresh
item (added at 432000) whose resolver lookup raises. -/
def staleAbortState : PipeState :=
  ⟨[⟨⟨2, 2, 2⟩, 0⟩, ⟨⟨1, 1, 1⟩, 432000⟩], [], [], 0, false⟩

/-! ## Helper lemmas -/

/-- Facts about a successful scan pass: the surviving pending list is a
sublist of the input, every surviving item is within the TTL, every minted
token carries the key of some input item, and jobs and minted tokens are in
bijection. -/
theorem scanGo_ok_facts (resolve : SelKey → Except Unit (Option Artifact))
    (uname : SelKey → Option String) (gen : Nat → String) (base : String)
    (now : Int) (l : List PendingItem) :
    ∀ (c : Nat) (p : List PendingItem) (js : List SendJob)
      (ms : List TokenRow),
      scanGo resolve uname gen base now l c = .ok p js ms →
      p.Sublist l ∧ (∀ x ∈ p, ¬ now - x.addedAt > pendingTtl) ∧
        (∀ tr ∈ ms, tr.key ∈ l.map PendingItem.key) ∧ js.length = ms.length := by
  induction l with
  | nil =>
    intro c p js ms h
    rw [scanGo] at h
    cases h
    exact ⟨List.Sublist.refl _, by simp, by simp, rfl⟩
  | cons item rest ih =>
    intro c p js ms h
    rw [scanGo] at h
    split at h
    · -- stale item, dropped
      obtain ⟨h1, h2, h3, h4⟩ := ih c p js ms h
      exact ⟨h1.cons _, h2,
        fun tr htr => List.mem_cons_of_mem _ (h3 tr htr), h4⟩
    · split at h
      · -- resolver raised
        exact absurd h (by simp)
      · -- no artifact row: item stays pending
        split at h
        · rename_i p' js' ms' heq
          cases h
          obtain ⟨h1, h2, h3, h4⟩ := ih _ _ _ _ heq
          refine ⟨h1.cons₂ _, ?_, fun tr htr => List.mem_cons_of_mem _ (h3 tr htr), h4⟩
          intro x hx
          rcases List.mem_cons.mp hx with rfl | hx'
          · assumption
          · exact h2 x hx'
        · exact absurd h (by simp)
      · -- artifact row found
        rename_i art hres
        split at h
        · -- empty screenshot_url: item stays pending
          split at h
          · rename_i p' js' ms' heq
            cases h
            obtain ⟨h1, h2, h3, h4⟩ := ih _ _ _ _ heq
            refine ⟨h1.cons₂ _, ?_, fun tr htr => List.mem_cons_of_mem _ (h3 tr htr), h4⟩
            intro x hx
            rcases List.mem_cons.mp hx with rfl | hx'
            · assumption
            · exact h2 x hx'
          · exact absurd h (by simp)
        · -- mint and queue
          split at h
          · rename_i p' js' ms' heq
            cases h
            obtain ⟨h1, h2, h3, h4⟩ := ih _ _ _ _ heq
            refine ⟨h1.cons _, h2, ?_, by simp [h4]⟩
            intro tr htr
            rcases List.mem_cons.mp htr with rfl | htr'
            · simp [mkToken, TokenRow.key]
            · exact List.mem_cons_of_mem _ (h3 tr htr')
          · exact absurd h (by simp)

/-- Under key-uniqueness of the pending list, a successful scan pass never
mints a token carrying the key of a stale input item. -/
theorem scanGo_stale_not_minted (resolve : SelKey → Except Unit (Option Artifact))
    (uname : SelKey → Option String) (gen : Nat → String) (base : String)
    (now : Int) (l : List PendingItem) :
    ∀ (c : Nat) (p : List PendingItem) (js : List SendJob)
      (ms : List TokenRow) (item : PendingItem),
      (l.map PendingItem.key).Nodup → item ∈ l →
      now - item.addedAt > pendingTtl →
      scanGo resolve uname gen base now l c = .ok p js ms →
      ∀ tr ∈ ms, tr.key ≠ item.key := by
  induction l with
  | nil => intro c p js ms item _ hmem; exact absurd hmem (by simp)
  | cons hd rest ih =>
    intro c p js ms item hnd hmem hstale h
    rw [List.map_cons, List.nodup_cons] at hnd
    obtain ⟨hkeyfresh, hndrest⟩ := hnd
    rw [scanGo] at h
    rcases List.mem_cons.mp hmem with rfl | hmemrest
    · -- the stale item is the head: dropped, minted keys come from the tail
      rw [if_pos hstale] at h
      obtain ⟨-, -, h3, -⟩ := scanGo_ok_facts resolve uname gen base now rest _ _ _ _ h
      intro tr htr heq
      exact hkeyfresh (heq ▸ h3 tr htr)
    · -- the stale item sits in the tail
      split at h
      · exact ih _ _ _ _ _ hndrest hmemrest hstale h
      · split at h
        · exact absurd h (by simp)
        · split at h
          · rename_i p' js' ms' heq
            cases h
            exact ih _ _ _ _ _ hndrest hmemrest hstale heq
          · exact absurd h (by simp)
        · split at h
          · split at h
            · rename_i p' js' ms' heq
              cases h
              exact ih _ _ _ _ _ hndrest hmemrest hstale heq
            · exact absurd h (by simp)
          · split at h
            · rename_i p' js' ms' heq
              cases h
              intro tr htr
              rcases List.mem_cons.mp htr with rfl | htr'
              · -- the head's freshly minted token: its key is the head's,
                -- which cannot be the stale tail item's key
                simp only [mkToken, TokenRow.key]
                intro heq
                apply hkeyfresh
                have h5 : hd.key = item.key := heq
                rw [h5]
                exact List.mem_map_of_mem PendingItem.key hmemrest
              · exact ih _ _ _ _ _ hndrest hmemrest hstale heq tr htr'
            · exact absurd h (by simp)

/-- Under key-uniqueness of the pending list, every token minted by a
successful scan pass has a key absent from the surviving pending list: the
pending entry is removed at the moment its job is produced. -/
theorem scanGo_minted_fresh (resolve : SelKey → Except Unit (Option Artifact))
    (uname : SelKey → Option String) (gen : Nat → String) (base : String)
    (now : Int) (l : List PendingItem) :
    ∀ (c : Nat) (p : List PendingItem) (js : List SendJob)
      (ms : List TokenRow),
      (l.map PendingItem.key).Nodup →
      scanGo resolve uname gen base now l c = .ok p js ms →
      ∀ tr ∈ ms, tr.key ∉ p.map PendingItem.key := by
  induction l with
  | nil =>
    intro c p js ms _ h
    rw [scanGo] at h
    cases h
    simp
  | cons hd rest ih =>
    intro c p js ms hnd h
    rw [List.map_cons, List.nodup_cons] at hnd
    obtain ⟨hkeyfresh, hndrest⟩ := hnd
    rw [scanGo] at h
    split at h
    · exact ih _ _ _ _ hndrest h
    · split at h
      · exact absurd h (by simp)
      · split at h
        · rename_i p' js' ms' heq
          cases h
          intro tr htr
          obtain ⟨-, -, h3, -⟩ := scanGo_ok_facts resolve uname gen base now rest _ _ _ _ heq
          rw [List.map_cons]
          intro hin
          rcases List.mem_cons.mp hin with hkey | hin'
          · exact hkeyfresh (hkey ▸ h3 tr htr)
          · exact ih _ _ _ _ hndrest heq tr htr hin'
        · exact absurd h (by simp)
      · split at h
        · split at h
          · rename_i p' js' ms' heq
            cases h
            intro tr htr
            obtain ⟨-, -, h3, -⟩ := scanGo_ok_facts resolve uname gen base now rest _ _ _ _ heq
            rw [List.map_cons]
            intro hin
            rcases List.mem_cons.mp hin with hkey | hin'
            · exact hkeyfresh (hkey ▸ h3 tr htr)
            · exact ih _ _ _ _ hndrest heq tr htr hin'
          · exact absurd h (by simp)
        · split at h
          · rename_i p' js' ms' heq
            cases h
            intro tr htr
            obtain ⟨h1, -, -, -⟩ := scanGo_ok_facts resolve uname gen base now rest _ _ _ _ heq
            rcases List.mem_cons.mp htr with rfl | htr'
            · simp only [mkToken, TokenRow.key]
              intro hin
              exact hkeyfresh ((h1.map PendingItem.key).subset hin)
            · exact ih _ _ _ _ hndrest heq tr htr'
          · exact absurd h (by simp)

/-- Every job a successful scan pass emits carries the upload link of one
of the tokens minted in that same pass. -/
theorem scanGo_jobs_link (resolve : SelKey → Except Unit (Option Artifact))
    (uname : SelKey → Option String) (gen : Nat → String) (base : String)
    (now : Int) (l : List PendingItem) :
    ∀ (c : Nat) (p : List PendingItem) (js : List SendJob)
      (ms : List TokenRow),
      scanGo resolve uname gen base now l c = .ok p js ms →
      ∀ j ∈ js, ∃ tr ∈ ms, j.buttonUrl = some (uploadLink base tr.token) := by
  induction l with
  | nil =>
    intro c p js ms h
    rw [scanGo] at h
    cases h
    simp
  | cons hd rest ih =>
    intro c p js ms h
    rw [scanGo] at h
    split at h
    · exact ih _ _ _ _ h
    · split at h
      · exact absurd h (by simp)
      · split at h
        · rename_i p' js' ms' heq
          cases h
          exact ih _ _ _ _ heq
        · exact absurd h (by simp)
      · split at h
        · split at h
          · rename_i p' js' ms' heq
            cases h
            exact ih _ _ _ _ heq
          · exact absurd h (by simp)
        · split at h
          · rename_i p' js' ms' heq
            cases h
            intro j hj
            rcases List.mem_cons.mp hj with rfl | hj'
            · exact ⟨_, List.mem_cons_self _ _, rfl⟩
            · obtain ⟨tr, htr, hurl⟩ := ih _ _ _ _ heq j hj'
              exact ⟨tr, List.mem_cons_of_mem _ htr, hurl⟩
          · exact absurd h (by simp)

/-- Every token a scan pass commits is created now, expires exactly
`tokenTtl` (2 days) later, and starts unused. -/
theorem scanGo_minted_expiry (resolve : SelKey → Except Unit (Option Artifact))
    (uname : SelKey → Option String) (gen : Nat → String) (base : String)
    (now : Int) (l : List PendingItem) :
    ∀ (c : Nat) tr,
      tr ∈ (scanGo resolve uname gen base now l c).minted →
      tr.createdAt = now ∧ tr.expiresAt = now + tokenTtl ∧ tr.usedAt = none := by
  induction l with
  | nil => intro c tr htr; rw [scanGo] at htr; simp [ScanResult.minted] at htr
  | cons hd rest ih =>
    intro c tr htr
    rw [scanGo] at htr
    split at htr
    · exact ih _ _ htr
    · split at htr
      · simp [ScanResult.minted] at htr
      · revert htr
        split
        · rename_i p' js' ms' heq
          intro htr
          have := ih c tr
          rw [heq] at this
          exact this htr
        · rename_i ms' heq
          intro htr
          have := ih c tr
          rw [heq] at this
          exact this htr
      · revert htr
        split
        · split
          · rename_i p' js' ms' heq
            intro htr
            have := ih c tr
            rw [heq] at this
            exact this htr
          · rename_i ms' heq
            intro htr
            have := ih c tr
            rw [heq] at this
            exact this htr
        · split
          · rename_i p' js' ms' heq
            intro htr
            rcases List.mem_cons.mp htr with rfl | htr'
            · exact ⟨rfl, rfl, rfl⟩
            · have := ih (c + 1) tr
              rw [heq] at this
              exact this htr'
          · rename_i ms' heq
            intro htr
            rcases List.mem_cons.mp htr with rfl | htr'
            · exact ⟨rfl, rfl, rfl⟩
            · have := ih (c + 1) tr
              rw [heq] at this
              exact this htr'

/-- `confirm_handler` preserves key-uniqueness of the pending list. -/
theorem confirmAdd_keysNodup (k : SelKey) (t : Int) (s : PipeState)
    (h : (s.pending.map PendingItem.key).Nodup) :
    ((confirmAdd k t s).pending.map PendingItem.key).Nodup := by
  unfold confirmAdd
  split
  · exact h
  · rename_i hany
    simp only [List.any_eq_true, decide_eq_true_eq, not_exists, not_and] at hany
    simp only [List.map_append, List.map_cons, List.map_nil]
    rw [List.nodup_append]
    refine ⟨h, List.nodup_singleton _, ?_⟩
    intro a ha hb
    simp only [List.mem_singleton] at hb
    obtain ⟨i, hi, hik⟩ := List.mem_map.mp ha
    exact hany i hi (hb ▸ hik)

/-- A scanner tick preserves key-uniqueness of the pending list. -/
theorem scanStep_keysNodup (resolve : SelKey → Except Unit (Option Artifact))
    (uname : SelKey → Option String) (gen : Nat → String) (base : String)
    (now : Int) (s : PipeState)
    (h : (s.pending.map PendingItem.key).Nodup) :
    (((scanStep resolve uname gen base now s).pending.map
      PendingItem.key)).Nodup := by
  unfold scanStep
  split
  · rename_i p js ms heq
    obtain ⟨h1, -, -, -⟩ :=
      scanGo_ok_facts resolve uname gen base now s.pending _ _ _ _ heq
    exact (h1.map PendingItem.key).nodup h
  · exact h

/-- Any single pipeline step preserves key-uniqueness of the pending
list. -/
theorem step_keysNodup (gen : Nat → String) (base : String)
    {s s' : PipeState} (hs : Step gen base s s')
    (h : (s.pending.map PendingItem.key).Nodup) :
    (s'.pending.map PendingItem.key).Nodup := by
  cases hs with
  | confirm k t s => exact confirmAdd_keysNodup k t s h
  | scan resolve uname now s hlive =>
    exact scanStep_keysNodup resolve uname gen base now s h
  | drainSend dispatch s => exact h

/-- Every reachable pipeline state keeps at most one pending entry per
selection key. -/
theorem reach_keysNodup (gen : Nat → String) (base : String) (s : PipeState)
    (h : Reach gen base s) : (s.pending.map PendingItem.key).Nodup := by
  induction h with
  | init => simp [initState]
  | step hr hs ih => exact step_keysNodup gen base hs ih

/-- A drain tick on a backlog whose every dispatch succeeds sends the whole
backlog in queue order and leaves the queue empty. -/
theorem drainLoop_all_ok {α ε : Type} (dispatch : α → Except ε Unit)
    (q : List α) (h : ∀ x ∈ q, dispatch x = .ok ()) :
    drainLoop dispatch q = ⟨q, [], none⟩ := by
  induction q with
  | nil => rfl
  | cons j rest ih =>
    rw [drainLoop, h j (List.mem_cons_self _ _),
      ih (fun x hx => h x (List.mem_cons_of_mem _ hx))]

/-- A drain tick whose dispatch raises at job `j` sends exactly the jobs
before `j`, drops `j` without re-queueing it, and leaves the jobs after `j`
queued. -/
theorem drainLoop_failure {α ε : Type} (dispatch : α → Except ε Unit)
    (pre post : List α) (j : α) (e : ε)
    (hpre : ∀ x ∈ pre, dispatch x = .ok ()) (hj : dispatch j = .error e) :
    drainLoop dispatch (pre ++ j :: post) = ⟨pre, post, some (j, e)⟩ := by
  induction pre with
  | nil => simp only [List.nil_append]; rw [drainLoop, hj]
  | cons x rest ih =>
    rw [List.cons_append, drainLoop, hpre x (List.mem_cons_self _ _),
      ih (fun y hy => hpre y (List.mem_cons_of_mem _ hy))]

/-- When a row with the conflicting key exists, the upsert rewrites rows in
place: the key list is unchanged. -/
theorem upsertExec_keys_eq (db : DB) (k : SelKey) (url : String) (now : Int)
    (h : db.execs.any (fun r => r.key = k) = true) :
    (upsertExec db k url now).execs.map ExecRow.key =
      db.execs.map ExecRow.key := by
  unfold upsertExec
  rw [if_pos h]
  simp only [List.map_map]
  apply List.map_congr_left
  intro r hr
  simp only [Function.comp_apply]
  split <;> rfl

/-- The `OptionExecution` upsert preserves key-uniqueness. -/
theorem upsertExec_keysNodup (db : DB) (k : SelKey) (url : String) (now : Int)
    (h : (db.execs.map ExecRow.key).Nodup) :
    ((upsertExec db k url now).execs.map ExecRow.key).Nodup := by
  by_cases hany : db.execs.any (fun r => r.key = k) = true
  · rw [upsertExec_keys_eq db k url now hany]
    exact h
  · unfold upsertExec
    rw [if_neg hany]
    simp only [List.map_append, List.map_cons, List.map_nil]
    rw [List.nodup_append]
    refine ⟨h, List.nodup_singleton _, ?_⟩
    intro a ha hb
    simp only [List.mem_singleton] at hb
    subst hb
    simp only [List.any_eq_true, decide_eq_true_eq] at hany
    obtain ⟨r, hr, hrk⟩ := List.mem_map.mp ha
    apply hany
    refine ⟨r, hr, ?_⟩
    rw [hrk]
    rfl

/-- One upload submission preserves key-uniqueness of `OptionExecution`. -/
theorem uploadSubmit_execKeysNodup (db : DB) (tok : String)
    (file : Option UFile) (now : Int)
    (h : (db.execs.map ExecRow.key).Nodup) :
    ((uploadSubmit db tok file now).2.execs.map ExecRow.key).Nodup := by
  cases hlk : lookupValid db tok now with
  | none => simp only [uploadSubmit, hlk]; exact h
  | some row =>
    cases file with
    | none => simp only [uploadSubmit, hlk]; exact h
    | some f =>
      by_cases hfn : f.filename = ""
      · simp only [uploadSubmit, hlk, hfn, if_pos]
        exact h
      · simp only [uploadSubmit, hlk, if_neg hfn]
        exact upsertExec_keysNodup db row.key (execUrl row f now) now h

/-- Any sequence of upload submissions preserves key-uniqueness of
`OptionExecution`. -/
theorem runUploads_execKeysNodup (calls : List (String × Option UFile × Int)) :
    ∀ db : DB, (db.execs.map ExecRow.key).Nodup →
      ((runUploads calls db).execs.map ExecRow.key).Nodup := by
  induction calls with
  | nil => intro db h; exact h
  | cons ccall rest ih =>
    intro db h
    simp only [runUploads, List.foldl_cons]
    exact ih _ (uploadSubmit_execKeysNodup db ccall.1 ccall.2.1 ccall.2.2 h)

/-- The conflict path of the upsert keeps the row count and overwrites the
stored url and creation time of the conflicting key. -/
theorem upsertExec_replaces (db : DB) (k : SelKey) (url : String) (now : Int)
    (hex : ∃ r ∈ db.execs, r.key = k) :
    (upsertExec db k url now).execs.length = db.execs.length ∧
    ∀ r ∈ (upsertExec db k url now).execs, r.key = k →
      r.screenshotUrl = url ∧ r.createdAt = now := by
  have hany : db.execs.any (fun r => r.key = k) = true := by
    obtain ⟨r, hr, hk⟩ := hex
    exact List.any_eq_true.mpr ⟨r, hr, decide_eq_true hk⟩
  unfold upsertExec
  rw [if_pos hany]
  constructor
  · simp
  · intro r hr hk
    obtain ⟨x, hx, hxr⟩ := List.mem_map.mp hr
    by_cases hxk : x.key = k
    · rw [← hxr]
      simp [hxk]
    · rw [← hxr] at hk
      simp only [if_neg hxk] at hk
      exact absurd hk hxk

/-- Claim C1 (code bug): redemption is NOT atomic with marking `used_at`.
`ui_upload_submit` runs a validity `SELECT` and, separately, an unguarded
`UPDATE`; in the interleaving check1-check2-write1-write2 of two concurrent
submissions of the same valid token, both handlers pass the check and both
answer 200, while the same two submissions run back to back let exactly one
succeed (the second sees the token used and answers 410). -/
theorem token_redemption_race :
    (runUploadRace "tk0" ⟨"s.png"⟩ 1000 sampleDB
        [.check1, .check2, .write1, .write2]).h1 = .done 200 ∧
    (runUploadRace "tk0" ⟨"s.png"⟩ 1000 sampleDB
        [.check1, .check2, .write1, .write2]).h2 = .done 200 ∧
    (runUploadRace "tk0" ⟨"s.png"⟩ 1000 sampleDB
        [.check1, .write1, .check2, .write2]).h1 = .done 200 ∧
    (runUploadRace "tk0" ⟨"s.png"⟩ 1000 sampleDB
        [.check1, .write1, .check2, .write2]).h2 = .done 410 := by
  decide

/-- Claim C2 counterexample: the conclusion "at most one SendJob per
selectionKey is outstanding at a time" fails. Confirming the same key
again after its pending entry was removed, with the artifact still
available, reaches a state whose send queue holds two jobs for the same
selection key (the two unused minted tokens both carry that key, and each
job carries one of their upload links). -/
theorem pending_two_jobs_same_key :
    Reach sampleGen sampleBase raceTrace ∧
    raceTrace.sendQueue.length = 2 ∧
    (∀ j ∈ raceTrace.sendQueue, j.userId = sampleKey.userId) ∧
    raceTrace.tokens.map TokenRow.key = [sampleKey, sampleKey] ∧
    (∀ t ∈ raceTrace.tokens, t.usedAt = none) ∧
    raceTrace.sendQueue.map SendJob.buttonUrl =
      [some (uploadLink sampleBase "tk0"), some (uploadLink sampleBase "tk1")] ∧
    raceTrace.tokens.map TokenRow.token = ["tk0", "tk1"] := by
  refine ⟨?_, by decide, by decide, by decide, by decide, by decide, by decide⟩
  exact Reach.step
    (Reach.step
      (Reach.step (Reach.step Reach.init (Step.confirm sampleKey 0 _))
        (Step.scan sampleResolve sampleUname 10 _ (by decide)))
      (Step.confirm sampleKey 20 _))
    (Step.scan sampleResolve sampleUname 30 _ (by decide))

/-- Claim C2 (amended): the Pending-Delivery Set holds at most one live
entry per selection key in every reachable state — a second add of a
present key is a no-op — and a successful scan pass removes a minted
token's key from the pending list at the moment its job is produced, so at
most one SendJob arises per pending entry; only a re-confirmation of an
already-removed key can put a second job for that key in flight. -/
theorem pending_dedup_and_removal_before_enqueue :
    (∀ (k : SelKey) (t : Int) (s : PipeState),
      (∃ i ∈ s.pending, i.key = k) → confirmAdd k t s = s) ∧
    (∀ (gen : Nat → String) (base : String) (s : PipeState),
      Reach gen base s → (s.pending.map PendingItem.key).Nodup) ∧
    (∀ (resolve : SelKey → Except Unit (Option Artifact))
      (uname : SelKey → Option String) (gen : Nat → String) (base : String)
      (now : Int) (l : List PendingItem) (c : Nat) (p : List PendingItem)
      (js : List SendJob) (ms : List TokenRow),
      (l.map PendingItem.key).Nodup →
      scanGo resolve uname gen base now l c = .ok p js ms →
      ∀ tr ∈ ms, tr.key ∉ p.map PendingItem.key) := by
  refine ⟨?_, fun gen base s h => reach_keysNodup gen base s h,
    fun resolve uname gen base now l c p js ms hnd h =>
      scanGo_minted_fresh resolve uname gen base now l c p js ms hnd h⟩
  intro k t s hex
  obtain ⟨i, hi, hik⟩ := hex
  unfold confirmAdd
  rw [if_pos (List.any_eq_true.mpr ⟨i, hi, decide_eq_true hik⟩)]

/-- Witness for claim C2 at concrete inputs: a duplicate add of the sample
key is dropped, the initial state is key-unique, and the token minted by a
concrete one-item scan has its key removed from the surviving list. -/
theorem pending_dedup_and_removal_before_enqueue_witness :
    confirmAdd sampleKey 5 ⟨[⟨sampleKey, 0⟩], [], [], 0, false⟩ =
      ⟨[⟨sampleKey, 0⟩], [], [], 0, false⟩ ∧
    (initState.pending.map PendingItem.key).Nodup ∧
    ∀ tr ∈ [sampleToken],
      tr.key ∉ ([] : List PendingItem).map PendingItem.key := by
  refine ⟨?_, ?_, ?_⟩
  · exact pending_dedup_and_removal_before_enqueue.1 sampleKey 5 _
      ⟨⟨sampleKey, 0⟩, by simp, rfl⟩
  · exact pending_dedup_and_removal_before_enqueue.2.1 sampleGen sampleBase
      initState Reach.init
  · exact pending_dedup_and_removal_before_enqueue.2.2 sampleResolve
      sampleUname sampleGen sampleBase 10 [⟨sampleKey, 0⟩] 0 []
      [mkJob ⟨sampleKey, 0⟩ sampleArt sampleBase "tk0"] [sampleToken]
      (by decide) (by decide)

/-- Claim C3 counterexample: a resolver exception for the first pending
item aborts the whole pass (the second item, whose artifact is available —
the same state scanned with a non-raising resolver queues two jobs — gets
no job) and the scanner halts; `trade_delivery_thread` has no exception
handler around the loop body. -/
theorem resolver_exception_aborts_scan :
    (scanStep errResolve sampleUname sampleGen sampleBase 10
      errScanState).halted = true ∧
    (scanStep errResolve sampleUname sampleGen sampleBase 10
      errScanState).pending = errScanState.pending ∧
    (scanStep errResolve sampleUname sampleGen sampleBase 10
      errScanState).sendQueue = [] ∧
    (scanStep sampleResolve sampleUname sampleGen sampleBase 10
      errScanState).sendQueue.length = 2 := by
  decide

/-- Claim C3 (amended): an exception raised by the artifact-resolution
lookup aborts the scan pass — no pending removal is applied and nothing is
enqueued (tokens already committed for earlier items remain) — and the
uncaught exception terminates the scanner thread; afterwards the pipeline
can take no scanner step, so the still-pending items are never retried. -/
theorem resolver_exception_halts_scanner :
    (∀ (resolve : SelKey → Except Unit (Option Artifact))
      (uname : SelKey → Option String) (gen : Nat → String) (base : String)
      (now : Int) (s : PipeState) (ms : List TokenRow),
      scanGo resolve uname gen base now s.pending s.counter = .err ms →
      (scanStep resolve uname gen base now s).pending = s.pending ∧
      (scanStep resolve uname gen base now s).sendQueue = s.sendQueue ∧
      (scanStep resolve uname gen base now s).halted = true ∧
      (scanStep resolve uname gen base now s).tokens = s.tokens ++ ms) ∧
    (∀ (gen : Nat → String) (base : String) (s s' : PipeState),
      s.halted = true → Step gen base s s' →
      s'.halted = true ∧ s'.tokens = s.tokens) := by
  constructor
  · intro resolve uname gen base now s ms h
    unfold scanStep
    rw [h]
    exact ⟨rfl, rfl, rfl, rfl⟩
  · intro gen base s s' hh hs
    cases hs with
    | confirm k t s =>
      unfold confirmAdd
      split
      · exact ⟨hh, rfl⟩
      · exact ⟨hh, rfl⟩
    | scan resolve uname now s hlive =>
      rw [hh] at hlive
      cases hlive
    | drainSend dispatch s => exact ⟨hh, rfl⟩

/-- Witness for claim C3 at concrete inputs: the erroring scan leaves the
concrete state's pending list and queue unchanged and halts, and any step
out of a halted state keeps it halted with no new token minted. -/
theorem resolver_exception_halts_scanner_witness :
    ((scanStep errResolve sampleUname sampleGen sampleBase 10
        errScanState).pending = errScanState.pending ∧
      (scanStep errResolve sampleUname sampleGen sampleBase 10
        errScanState).sendQueue = errScanState.sendQueue ∧
      (scanStep errResolve sampleUname sampleGen sampleBase 10
        errScanState).halted = true ∧
      (scanStep errResolve sampleUname sampleGen sampleBase 10
        errScanState).tokens = errScanState.tokens ++ []) ∧
    ((confirmAdd sampleKey 5 haltedState).halted = true ∧
      (confirmAdd sampleKey 5 haltedState).tokens = haltedState.tokens) := by
  constructor
  · exact resolver_exception_halts_scanner.1 errResolve sampleUname sampleGen
      sampleBase 10 errScanState [] (by decide)
  · exact resolver_exception_halts_scanner.2 sampleGen sampleBase haltedState
      _ rfl (Step.confirm sampleKey 5 haltedState)

/-- Claim C4 counterexample: a dispatch failure on the first of two queued
send jobs ends the tick with the second job undispatched (it stays in the
queue), refuting "a failure dispatching one job does not stop the draining
of the remaining jobs observed in that tick". -/
theorem send_failure_stops_drain :
    (drainSendQueue sampleSendFail
      [⟨1, "p1", "c1", none⟩, ⟨2, "p2", "c2", none⟩]).sent = [] ∧
    (drainSendQueue sampleSendFail
      [⟨1, "p1", "c1", none⟩, ⟨2, "p2", "c2", none⟩]).remaining =
      [⟨2, "p2", "c2", none⟩] := by
  decide

/-- Claim C4 (amended): a failure dispatching one send job ends that drain
tick — the jobs popped before it were dispatched, the jobs after it stay
queued for the next tick — and the failed job is dropped without being
re-queued (no retry). -/
theorem send_failure_drop_no_retry {ε : Type} (send : SendJob → Except ε Unit)
    (pre post : List SendJob) (j : SendJob) (e : ε)
    (hpre : ∀ x ∈ pre, send x = .ok ()) (hj : send j = .error e) :
    drainSendQueue send (pre ++ j :: post) = ⟨pre, post, some (j, e)⟩ :=
  drainLoop_failure send pre post j e hpre hj

/-- Witness for claim C4 at concrete inputs: with a three-job backlog whose
middle job fails, the tick sends the first job, drops the failed one, and
leaves the third queued. -/
theorem send_failure_drop_no_retry_witness :
    drainSendQueue sampleSendFail
      ([⟨2, "p2", "c2", none⟩] ++ ⟨1, "p1", "c1", none⟩ ::
        [⟨3, "p3", "c3", none⟩]) =
      ⟨[⟨2, "p2", "c2", none⟩], [⟨3, "p3", "c3", none⟩],
        some (⟨1, "p1", "c1", none⟩, ())⟩ :=
  send_failure_drop_no_retry sampleSendFail [⟨2, "p2", "c2", none⟩]
    [⟨3, "p3", "c3", none⟩] ⟨1, "p1", "c1", none⟩ ()
    (by intro x hx; rw [List.mem_singleton] at hx; subst hx; rfl) rfl

/-- Claim C5 counterexample: the removal is NOT unconditional. At scan
time 432001 the item added at 0 is one second past the 5-day TTL, yet
because the other item's resolver lookup raises, the pass aborts before
any removal is applied: the stale item is still pending after the tick and
the dead scanner never removes it on a later tick. -/
theorem stale_item_survives_aborted_scan :
    (432001 : Int) - (0 : Int) > pendingTtl ∧
    (⟨⟨2, 2, 2⟩, 0⟩ : PendingItem) ∈ staleAbortState.pending ∧
    (⟨⟨2, 2, 2⟩, 0⟩ : PendingItem) ∈
      (scanStep errResolve sampleUname sampleGen sampleBase 432001
        staleAbortState).pending ∧
    (scanStep errResolve sampleUname sampleGen sampleBase 432001
      staleAbortState).halted = true := by
  decide

/-- Claim C5 (amended): in a scan pass that completes without a resolver
exception, an item whose age exceeds the 5-day TTL at scan time is removed
without a token minted for its key (hence without a SendJob: jobs and
minted tokens are in bijection), whatever the resolver would have answered
for it; a pass aborted by a resolver exception applies no removals, so the
stale item stays pending (claim C3). -/
theorem stale_item_dropped_without_job
    (resolve : SelKey → Except Unit (Option Artifact))
    (uname : SelKey → Option String) (gen : Nat → String) (base : String)
    (now : Int) (l : List PendingItem) (c : Nat) (p : List PendingItem)
    (js : List SendJob) (ms : List TokenRow) (item : PendingItem)
    (hnd : (l.map PendingItem.key).Nodup) (hmem : item ∈ l)
    (hstale : now - item.addedAt > pendingTtl)
    (hok : scanGo resolve uname gen base now l c = .ok p js ms) :
    item ∉ p ∧ (∀ tr ∈ ms, tr.key ≠ item.key) ∧ js.length = ms.length := by
  obtain ⟨-, h2, -, h4⟩ :=
    scanGo_ok_facts resolve uname gen base now l c p js ms hok
  exact ⟨fun hp => h2 item hp hstale,
    scanGo_stale_not_minted resolve uname gen base now l c p js ms item
      hnd hmem hstale hok, h4⟩

/-- Witness for claim C5 at concrete inputs: scanning a single item aged
one second past the TTL, with an artifact available, drops it and produces
no token and no job. -/
theorem stale_item_dropped_without_job_witness :
    (⟨sampleKey, 0⟩ : PendingItem) ∉ ([] : List PendingItem) ∧
    (∀ tr ∈ ([] : List TokenRow), tr.key ≠ (⟨sampleKey, 0⟩ : PendingItem).key) ∧
    ([] : List SendJob).length = ([] : List TokenRow).length :=
  stale_item_dropped_without_job sampleResolve sampleUname sampleGen
    sampleBase 432001 [⟨sampleKey, 0⟩] 0 [] [] [] ⟨sampleKey, 0⟩
    (by decide) (by decide) (by decide) (by decide)

/-- Claim C6 (confirmed): every token committed by a scan pass is created
at the pass time `now` with `expires_at = now + 2 days` and starts unused;
and an upload request whose token is used (`used_at` set) or expired
(`now` at or past `expires_at`) is answered 410 with the database
unchanged, on both the form view and the submission. -/
theorem token_expiry_and_rejection :
    (∀ (resolve : SelKey → Except Unit (Option Artifact))
      (uname : SelKey → Option String) (gen : Nat → String) (base : String)
      (now : Int) (l : List PendingItem) (c : Nat) (tr : TokenRow),
      tr ∈ (scanGo resolve uname gen base now l c).minted →
      tr.createdAt = now ∧ tr.expiresAt = now + tokenTtl ∧
        tr.usedAt = none) ∧
    (∀ (db : DB) (tok : String) (now : Int) (file : Option UFile),
      (∀ t ∈ db.tokens, t.token = tok → t.usedAt ≠ none ∨ t.expiresAt ≤ now) →
      uploadSubmit db tok file now = (410, db) ∧
        uploadFormStatus db tok now = 410) := by
  constructor
  · intro resolve uname gen base now l c tr htr
    exact scanGo_minted_expiry resolve uname gen base now l c tr htr
  · intro db tok now file hinv
    have hnone : lookupValid db tok now = none := by
      unfold lookupValid
      rw [List.find?_eq_none]
      intro t ht
      simp only [decide_eq_true_eq, not_and]
      intro htok hused
      rcases hinv t ht htok with hu | he
      · exact absurd hused hu
      · exact not_lt.mpr he
    constructor
    · simp only [uploadSubmit, hnone]
    · simp only [uploadFormStatus, hnone]

/-- Witness for claim C6 at concrete inputs: the sample token minted at 10
expires at 10 + 2 days, and redeeming it one second past expiry is
rejected with 410 by both endpoints, leaving the database unchanged. -/
theorem token_expiry_and_rejection_witness :
    (sampleToken.createdAt = 10 ∧ sampleToken.expiresAt = 10 + tokenTtl ∧
      sampleToken.usedAt = none) ∧
    (uploadSubmit sampleDB "tk0" (some ⟨"s.png"⟩) 172811 = (410, sampleDB) ∧
      uploadFormStatus sampleDB "tk0" 172811 = 410) := by
  constructor
  · exact token_expiry_and_rejection.1 sampleResolve sampleUname sampleGen
      sampleBase 10 [⟨sampleKey, 0⟩] 0 sampleToken (by decide)
  · exact token_expiry_and_rejection.2 sampleDB "tk0" 172811
      (some ⟨"s.png"⟩) (by decide)

/-- Claim C7 counterexample: the entire backlog is NOT always consumed —
on the poll queue, a failing announcement for the first of two queued
polls ends the tick with the second poll still queued. -/
theorem poll_failure_stops_drain :
    (drainPollQueue samplePostFail [7, 8]).sent = [] ∧
    (drainPollQueue samplePostFail [7, 8]).remaining = [8] := by
  constructor <;> rfl

/-- Claim C7 (amended): a drain tick in which every dispatch succeeds
consumes the entire backlog observed, dispatching in strict FIFO (queue)
order and leaving the queue empty; a tick that observes an empty queue
dispatches nothing and exits at once (the non-blocking `get_nowait`
loop). A failing dispatch ends the tick early (claim C4). -/
theorem drain_fifo_full_backlog {α ε : Type} (dispatch : α → Except ε Unit)
    (q : List α) :
    ((∀ x ∈ q, dispatch x = .ok ()) →
      drainLoop dispatch q = ⟨q, [], none⟩) ∧
    drainLoop dispatch ([] : List α) = ⟨[], [], none⟩ :=
  ⟨fun h => drainLoop_all_ok dispatch q h, rfl⟩

/-- Witness for claim C7 at concrete inputs: an all-success three-poll
backlog is flushed in order within one tick, and an empty queue yields an
immediate empty tick. -/
theorem drain_fifo_full_backlog_witness :
    drainLoop samplePostOk [7, 8, 9] = ⟨[7, 8, 9], [], none⟩ ∧
    drainLoop samplePostOk ([] : List Int) = ⟨[], [], none⟩ :=
  ⟨(drain_fifo_full_backlog samplePostOk [7, 8, 9]).1
      (fun _ _ => rfl),
    (drain_fifo_full_backlog samplePostOk ([] : List Int)).2⟩

/-- Claim C8 counterexample: the action URL placed in the SendJob for the
minted token "tk0" is `{base}/ui/upload/tk0`, not the claimed
`{base}/upload/tk0`. -/
theorem upload_link_not_bare_upload :
    (scanStep sampleResolve sampleUname sampleGen sampleBase 10
      (confirmAdd sampleKey 0 initState)).tokens.map TokenRow.token =
      ["tk0"] ∧
    (scanStep sampleResolve sampleUname sampleGen sampleBase 10
      (confirmAdd sampleKey 0 initState)).sendQueue.map SendJob.buttonUrl =
      [some (sampleBase ++ "/ui/upload/tk0")] ∧
    (sampleBase ++ "/ui/upload/tk0") ≠ (sampleBase ++ "/upload/tk0") := by
  refine ⟨by decide, by decide, by decide⟩

/-- Claim C8 (amended): every SendJob emitted by a scan pass carries the
action URL `{baseUrl}/ui/upload/{token}` for one of the tokens minted in
that same pass. -/
theorem upload_link_format (resolve : SelKey → Except Unit (Option Artifact))
    (uname : SelKey → Option String) (gen : Nat → String) (base : String)
    (now : Int) (l : List PendingItem) (c : Nat) (p : List PendingItem)
    (js : List SendJob) (ms : List TokenRow)
    (h : scanGo resolve uname gen base now l c = .ok p js ms) :
    ∀ j ∈ js, ∃ tr ∈ ms,
      j.buttonUrl = some (base ++ "/ui/upload/" ++ tr.token) :=
  scanGo_jobs_link resolve uname gen base now l c p js ms h

/-- Witness for claim C8 at concrete inputs: the job of a concrete
one-item scan links to `{base}/ui/upload/` followed by its minted
token. -/
theorem upload_link_format_witness :
    (mkJob ⟨sampleKey, 0⟩ sampleArt sampleBase "tk0").buttonUrl =
      some (sampleBase ++ "/ui/upload/" ++ sampleToken.token) := by
  obtain ⟨tr, htr, heq⟩ := upload_link_format sampleResolve sampleUname
    sampleGen sampleBase 10 [⟨sampleKey, 0⟩] 0 []
    [mkJob ⟨sampleKey, 0⟩ sampleArt sampleBase "tk0"] [sampleToken]
    (by decide) (mkJob ⟨sampleKey, 0⟩ sampleArt sampleBase "tk0")
    (List.mem_singleton.mpr rfl)
  rw [List.mem_singleton] at htr
  subst htr
  exact heq

/-- Claim C9 (confirmed): any sequence of upload submissions keeps
`OptionExecution` key-unique (at most one row per poll, option and user),
and a successful submission whose selection already has a row answers 200,
keeps the row count, and overwrites that row's `screenshot_url` and
`created_at` instead of adding a second row. -/
theorem exec_upsert_unique_key :
    (∀ (calls : List (String × Option UFile × Int)) (db : DB),
      (db.execs.map ExecRow.key).Nodup →
      ((runUploads calls db).execs.map ExecRow.key).Nodup) ∧
    (∀ (db : DB) (tok : String) (row : TokenRow) (f : UFile) (now : Int),
      lookupValid db tok now = some row → f.filename ≠ "" →
      (∃ r ∈ db.execs, r.key = row.key) →
      (uploadSubmit db tok (some f) now).1 = 200 ∧
      (uploadSubmit db tok (some f) now).2.execs.length = db.execs.length ∧
      ∀ r ∈ (uploadSubmit db tok (some f) now).2.execs,
        r.key = row.key →
        r.screenshotUrl = execUrl row f now ∧ r.createdAt = now) := by
  constructor
  · intro calls db h
    exact runUploads_execKeysNodup calls db h
  · intro db tok row f now hlk hfn hex
    have hrepl := upsertExec_replaces db row.key (execUrl row f now) now hex
    simp only [uploadSubmit, hlk, if_neg hfn]
    exact ⟨trivial, hrepl.1, hrepl.2⟩

/-- Witness for claim C9 at concrete inputs: re-uploading for a selection
that already has an execution row keeps one row and rewrites its url and
timestamp. -/
theorem exec_upsert_unique_key_witness :
    (((runUploads [("tk0", some ⟨"s.png"⟩, 1000)] sampleDB9).execs.map
      ExecRow.key).Nodup) ∧
    ((uploadSubmit sampleDB9 "tk0" (some ⟨"s.png"⟩) 1000).1 = 200 ∧
      (uploadSubmit sampleDB9 "tk0" (some ⟨"s.png"⟩) 1000).2.execs.length =
        sampleDB9.execs.length ∧
      ∀ r ∈ (uploadSubmit sampleDB9 "tk0" (some ⟨"s.png"⟩) 1000).2.execs,
        r.key = sampleToken.key →
        r.screenshotUrl = execUrl sampleToken ⟨"s.png"⟩ 1000 ∧
          r.createdAt = 1000) := by
  constructor
  · exact exec_upsert_unique_key.1 [("tk0", some ⟨"s.png"⟩, 1000)] sampleDB9
      (by decide)
  · exact exec_upsert_unique_key.2 sampleDB9 "tk0" sampleToken ⟨"s.png"⟩ 1000
      (by decide) (by decide) ⟨⟨1, 2, 100, "uploads/old.png", 5⟩, by decide, by decide⟩

/-- Claim C10 (confirmed): an upload POST holding a valid token but no
file is answered 400 with the database returned unchanged — the token's
`used_at` stays null and no `OptionExecution` row is written. -/
theorem upload_no_file_rejected (db : DB) (tok : String) (now : Int)
    (h : (lookupValid db tok now).isSome) :
    uploadSubmit db tok none now = (400, db) := by
  obtain ⟨row, hrow⟩ := Option.isSome_iff_exists.mp h
  simp only [uploadSubmit, hrow]

/-- Witness for claim C10 at concrete inputs: posting the valid sample
token without a file yields 400 and the untouched database. -/
theorem upload_no_file_rejected_witness :
    uploadSubmit sampleDB "tk0" none 1000 = (400, sampleDB) :=
  upload_no_file_rejected sampleDB "tk0" 1000 (by decide)

end InvestorsUI
